import Mathlib

/-!
Verification of the scope-aware symbol-resolution core of Verible's Kythe
facts extractor (`verilog/tools/kythe/kythe_facts_extractor.h`) and of the
CST type utility `IsStorageTypeOfDataTypeSpecified` (`verilog/CST/type.cc`).

C++ strings are embedded as `List Char`; `absl::StartsWith(s, p)` is the
prefix test `p.isPrefixOf s`.  Stacks (`AutoPopStack`) are embedded as Lean
lists whose head is the most recently pushed (top) element, so iterating the
C++ vector from `rbegin()` to `rend()` corresponds to iterating the Lean list
from head to tail.  A scope (`std::vector<VName>`) keeps declaration order:
`push_back` is appending at the end of the list.
-/

namespace Verible

/-- A C++ `std::string`, embedded as its character sequence. -/
abbrev Str := List Char

/-- Kythe VName (from kythe_facts.h): a signature plus provenance fields,
copied verbatim into every emitted fact and edge. -/
structure VName where
  signature : Str
  path : Str
  root : Str
  corpus : Str
  language : Str
deriving DecidableEq, Repr

/-- Embedding of `absl::StartsWith(s, pfx)`: does `s` start with `pfx`? -/
def startsWith (s pfx : Str) : Bool :=
  pfx.isPrefixOf s

/-- Inner loop of `ScopeContext::SearchForDefinition`: scan one scope's
VNames from `rbegin()` to `rend()` (reverse declaration order) and return the
first whose signature starts with the reference signature. -/
def searchScope (pfx : Str) (scope : List VName) : Option VName :=
  scope.reverse.find? (fun v => startsWith v.signature pfx)

/-- Embedding of `ScopeContext::SearchForDefinition` from
kythe_facts_extractor.h: loop over the scope stack from the top (innermost,
head of the list) to the bottom, inside each scope loop in reverse
declaration order, and return the first VName whose signature has the given
reference signature as a prefix (`absl::StartsWith`); return null (`none`)
when no scope yields a match. -/
def SearchForDefinition : List (List VName) → Str → Option VName
  | [], _ => none
  | scope :: rest, pfx =>
    match searchScope pfx scope with
    | some v => some v
    | none => SearchForDefinition rest pfx

/-- State-passing embedding of the same method, making the (absence of)
mutation of `scope_context_` explicit: the C++ body consists only of
range-for loops over const references and returns, so each loop iteration
hands the scope stack on unchanged. -/
def searchForDefinitionState : List (List VName) → Str → Option VName × List (List VName)
  | [], _ => (none, [])
  | scope :: rest, pfx =>
    match searchScope pfx scope with
    | some v => (some v, scope :: rest)
    | none =>
      let r := searchForDefinitionState rest pfx
      (r.1, scope :: r.2)

/-- Signature separator used when composing kind tags and scope-relative
signatures (spec example: `x#variable#foo#module`). -/
def sigSep : Str := ['#']

/-- Modelled from the spec: `CreateModuleSignature` (declared in
kythe_facts_extractor.h; its body lives in kythe_facts_extractor.cc, which is
not among the sources): returns the kind-tagged signature `name#module`. -/
def CreateModuleSignature (name : Str) : Str :=
  name ++ sigSep ++ "module".toList

/-- Modelled from the spec: `CreateClassSignature` (body not among the
sources): returns the kind-tagged signature `name#class`. -/
def CreateClassSignature (name : Str) : Str :=
  name ++ sigSep ++ "class".toList

/-- Modelled from the spec: `CreateVariableSignature` (body not among the
sources): returns the kind-tagged signature `name#variable`. -/
def CreateVariableSignature (name : Str) : Str :=
  name ++ sigSep ++ "variable".toList

/-- Embedding of `VNameContext::top` (kythe_facts_extractor.h): the top of the
stack of ancestor VNames; the `ABSL_DIE_IF_NULL` fatal abort on an empty
stack is embedded as `none`. -/
def VNameContext.top (ctx : List VName) : Option VName :=
  ctx.head?

/-- Modelled from the spec: `CreateScopeRelativeSignature` (declared in
kythe_facts_extractor.h; body not among the sources): returns the local
signature concatenated with the signature of the VName on top of
VNameContext; with an empty VNameContext it hits the fatal
`ABSL_DIE_IF_NULL` inside `VNameContext::top`, embedded as `none`. -/
def CreateScopeRelativeSignature (ctx : List VName) (localSig : Str) : Option Str :=
  match VNameContext.top ctx with
  | none => none
  | some v => some (localSig ++ sigSep ++ v.signature)

/-- Kinds of IndexingFactsTree nodes (the extractor's dispatch set); kinds
the extractor does not recognize are collapsed into `other`. -/
inductive FactKind where
  | file
  | modul
  | moduleInstance
  | classRecord
  | classInstance
  | variableDefinition
  | variableReference
  | other
deriving DecidableEq, Repr

/-- An anchor: a source-text span (byte offsets) plus its literal text. -/
structure Anchor where
  startLoc : Nat
  endLoc : Nat
  text : Str
deriving DecidableEq, Repr

/-- An IndexingFactsTree node: a kind, its anchors, and its ordered
children. -/
inductive IndexingFactNode where
  | mk (kind : FactKind) (anchors : List Anchor) (children : List IndexingFactNode)

/-- Names of emitted Kythe facts; the byte-level rendering of a record is a
FactEmitter formatting detail, so the fact-name alphabet is embedded as an
enumeration. -/
inductive FactName where
  | nodeKind
deriving DecidableEq, Repr

/-- Values of emitted Kythe facts. -/
inductive FactVal where
  | file
  | moduleRecord
  | classRec
  | instanceRec
  | var
  | anchor
deriving DecidableEq, Repr

/-- Kinds of emitted Kythe edges. -/
inductive EdgeKind where
  | childof
  | definesBinding
  | ref
  | instantiates
deriving DecidableEq, Repr

/-- One record written to the output sink: a fact line or an edge line. -/
inductive Entry where
  | fact (v : VName) (fname : FactName) (fval : FactVal)
  | edge (source : VName) (kind : EdgeKind) (target : VName)
deriving DecidableEq, Repr

/-- Extractor state during one traversal: the two context stacks (head of the
list = top of the stack), the output sink in emission order, and
instrumentation counting every push and pop on each stack. -/
structure ExtractorState where
  vnamesContext : List VName
  scopeContext : List (List VName)
  output : List Entry
  vnamePushes : Nat
  vnamePops : Nat
  scopePushes : Nat
  scopePops : Nat
deriving DecidableEq, Repr

/-- Fresh extractor: empty stacks, empty output (each file restarts all
stacks). -/
def initState : ExtractorState :=
  ⟨[], [], [], 0, 0, 0, 0⟩

/-- Write one record to the output sink. -/
def emit (st : ExtractorState) (e : Entry) : ExtractorState :=
  { st with output := st.output ++ [e] }

/-- Entry protocol of a scope-introducing node: push its VName onto
VNameContext and a fresh empty scope onto ScopeContext. -/
def pushContexts (v : VName) (st : ExtractorState) : ExtractorState :=
  { st with vnamesContext := v :: st.vnamesContext,
            scopeContext := [] :: st.scopeContext,
            vnamePushes := st.vnamePushes + 1,
            scopePushes := st.scopePushes + 1 }

/-- Exit protocol (the AutoPop destructors): pop both stacks. -/
def popContexts (st : ExtractorState) : ExtractorState :=
  { st with vnamesContext := st.vnamesContext.tail,
            scopeContext := st.scopeContext.tail,
            vnamePops := st.vnamePops + 1,
            scopePops := st.scopePops + 1 }

/-- Append a definition's VName to the scope on top of the stack
(`scope_context_.top().push_back(...)`); with no open scope there is nothing
to append to (the C++ would abort there, reachable only from malformed input
trees since the File node opens a scope first). -/
def appendToTopScope (v : VName) : List (List VName) → List (List VName)
  | [] => []
  | s :: rest => (s ++ [v]) :: rest

/-- Local name of a node: the text of its first anchor. -/
def nodeName (anchors : List Anchor) : Str :=
  match anchors with
  | [] => []
  | a :: _ => a.text

/-- Mint a VName for the current file: the signature plus the provenance
fields, all files sharing corpus/root/language configuration. -/
def mkVName (sig : Str) (fp : Str) : VName :=
  ⟨sig, fp, [], [], "verilog".toList⟩

/-- Modelled from the spec: `PrintAnchorVName` derives an anchor's VName
deterministically from the file VName and the span's offsets. -/
def anchorVName (fp : Str) (a : Anchor) : VName :=
  mkVName ('@' :: ((toString a.startLoc).toList ++ [':'] ++ (toString a.endLoc).toList)) fp

/-- Scope-relative signature as used during the traversal; the `none` branch
of `CreateScopeRelativeSignature` (fatal abort on an empty VNameContext,
reachable only from malformed trees) keeps the local signature so the
embedding stays total. -/
def scopeRelSig (ctx : List VName) (localSig : Str) : Str :=
  match CreateScopeRelativeSignature ctx localSig with
  | some s => s
  | none => localSig

/-- Emit a childof edge from a freshly minted VName to the nearest enclosing
defining entity (top of VNameContext). -/
def emitChildOf (v : VName) (st : ExtractorState) : ExtractorState :=
  match st.vnamesContext.head? with
  | some parent => emit st (Entry.edge v EdgeKind.childof parent)
  | none => st

/-- Modelled from the spec: entry handling of a Module or Class node: mint
the scope-relative VName, emit its node-kind fact and a childof edge to the
enclosing VName, append it to the enclosing scope so later siblings resolve
it, then push it together with a fresh scope for the children. -/
def enterScopeNode (fp : Str) (localSig : Str) (fval : FactVal) (st : ExtractorState) :
    ExtractorState :=
  let v := mkVName (scopeRelSig st.vnamesContext localSig) fp
  let st1 := emit st (Entry.fact v FactName.nodeKind fval)
  let st2 := emitChildOf v st1
  pushContexts v { st2 with scopeContext := appendToTopScope v st2.scopeContext }

/-- Modelled from the spec: VariableDefinition handling: mint the
scope-relative variable VName, emit its node-kind fact and childof edge,
append it to the current scope, and bind its source span to it with a
defines/binding anchor. -/
def handleVariableDef (fp : Str) (anchors : List Anchor) (st : ExtractorState) :
    ExtractorState :=
  let v := mkVName (scopeRelSig st.vnamesContext (CreateVariableSignature (nodeName anchors))) fp
  let st1 := emit st (Entry.fact v FactName.nodeKind FactVal.var)
  let st2 := emitChildOf v st1
  let st3 := { st2 with scopeContext := appendToTopScope v st2.scopeContext }
  match anchors.head? with
  | none => st3
  | some a =>
    let av := anchorVName fp a
    emit (emit st3 (Entry.fact av FactName.nodeKind FactVal.anchor))
      (Entry.edge av EdgeKind.definesBinding v)

/-- Modelled from the spec: VariableReference handling: search the scope
stack with the bare (not scope-relative) variable signature; always emit the
reference's anchor fact; add a ref edge to the found definition only on a
match, and on a miss emit no edge and continue. -/
def handleVariableRef (fp : Str) (anchors : List Anchor) (st : ExtractorState) :
    ExtractorState :=
  match anchors.head? with
  | none => st
  | some a =>
    let av := anchorVName fp a
    let st1 := emit st (Entry.fact av FactName.nodeKind FactVal.anchor)
    match SearchForDefinition st.scopeContext (CreateVariableSignature a.text) with
    | some d => emit st1 (Entry.edge av EdgeKind.ref d)
    | none => st1

/-- Modelled from the spec: ModuleInstance and ClassInstance handling:
anchor 0 names the instantiated type, anchor 1 the instance; mint the
instance's scope-relative VName, emit its fact, append it to the current
scope, and emit an instantiates edge only when the scope search resolves the
type's kind-tagged signature (a miss is silent and non-fatal). -/
def handleInstance (fp : Str) (typeSigOf : Str → Str) (anchors : List Anchor)
    (st : ExtractorState) : ExtractorState :=
  let instName := nodeName anchors.tail
  let v := mkVName (scopeRelSig st.vnamesContext (CreateVariableSignature instName)) fp
  let st1 := emit st (Entry.fact v FactName.nodeKind FactVal.instanceRec)
  let st2 := { st1 with scopeContext := appendToTopScope v st1.scopeContext }
  match SearchForDefinition st.scopeContext (typeSigOf (nodeName anchors)) with
  | some d => emit st2 (Entry.edge v EdgeKind.instantiates d)
  | none => st2

mutual

/-- Modelled from the spec: `KytheFactsExtractor::Visit` (declared in
kythe_facts_extractor.h; its body lives in kythe_facts_extractor.cc, not
among the sources): one depth-first traversal dispatching on the node kind,
with the push/pop discipline of §4.3 of the spec. -/
def visit (fp : Str) (st : ExtractorState) : IndexingFactNode → ExtractorState
  | .mk FactKind.file _ children =>
    let v := mkVName fp fp
    let st1 := emit st (Entry.fact v FactName.nodeKind FactVal.file)
    popContexts (visitList fp (pushContexts v st1) children)
  | .mk FactKind.modul anchors children =>
    popContexts (visitList fp
      (enterScopeNode fp (CreateModuleSignature (nodeName anchors)) FactVal.moduleRecord st)
      children)
  | .mk FactKind.classRecord anchors children =>
    popContexts (visitList fp
      (enterScopeNode fp (CreateClassSignature (nodeName anchors)) FactVal.classRec st)
      children)
  | .mk FactKind.moduleInstance anchors _ =>
    handleInstance fp CreateModuleSignature anchors st
  | .mk FactKind.classInstance anchors _ =>
    handleInstance fp CreateClassSignature anchors st
  | .mk FactKind.variableDefinition anchors _ =>
    handleVariableDef fp anchors st
  | .mk FactKind.variableReference anchors _ =>
    handleVariableRef fp anchors st
  | .mk FactKind.other _ children =>
    visitList fp st children

/-- Visit a node's children in order, threading the state left to right. -/
def visitList (fp : Str) (st : ExtractorState) : List IndexingFactNode → ExtractorState
  | [] => st
  | c :: cs => visitList fp (visit fp st c) cs

end

/-- Modelled from the spec: one whole extraction run: a fresh extractor
(empty stacks, empty output sink) visits the root, and the output sink is
the only observable result. -/
def extractKytheFacts (fp : Str) (root : IndexingFactNode) : List Entry :=
  (visit fp initState root).output

/-- Node tags of the verilog concrete syntax tree (`NodeEnum` from
verilog/CST/verilog_nonterminals.h); only `kDataType` matters here, other
tags are collapsed into a numbered constructor. -/
inductive NodeEnum where
  | kDataType
  | otherTag (n : Nat)
deriving DecidableEq, Repr

/-- A `verible::Symbol`: either a token leaf or a syntax-tree node carrying a
tag and an ordered list of children, each of which may be null. -/
inductive Symbol where
  | leaf (text : Str)
  | node (tag : NodeEnum) (children : List (Option Symbol))

/-- Modelled from the spec: `verible::GetSubtreeAsSymbol`
(common/text/tree_utils.h, an external collaborator per the spec, not among
the sources): checks that the symbol is a node of the expected kind and
returns its child at the given position; a missing (null) child comes back as
`none`, raising no error. -/
def GetSubtreeAsSymbol (s : Symbol) (tag : NodeEnum) (pos : Nat) : Option Symbol :=
  match s with
  | .leaf _ => none
  | .node t cs => if t = tag then cs.getD pos none else none

/-- Embedding of `IsStorageTypeOfDataTypeSpecified` (verilog/CST/type.cc):
fetches child 0 of the symbol viewed as a `kDataType` node and reports
whether that pointer is non-null. -/
def IsStorageTypeOfDataTypeSpecified (symbol : Symbol) : Bool :=
  (GetSubtreeAsSymbol symbol NodeEnum.kDataType 0).isSome

/-- Frame shape of the scope stack across a subtree visit: the top scope may
have gained definitions at its end; everything below is untouched. -/
def topExtend (ex : List VName) : List (List VName) → List (List VName)
  | [] => []
  | s :: rest => (s ++ ex) :: rest

/-- Relation between the extractor states before and after visiting one
subtree: VNameContext is restored exactly, the scope stack is unchanged
except for definitions appended to its top scope, the output sink only grew,
and each stack saw equally many pushes and pops. -/
def FramePreserved (st st' : ExtractorState) : Prop :=
  st'.vnamesContext = st.vnamesContext
  ∧ (∃ ex, st'.scopeContext = topExtend ex st.scopeContext)
  ∧ (∃ out, st'.output = st.output ++ out)
  ∧ (∃ k, st'.vnamePushes = st.vnamePushes + k ∧ st'.vnamePops = st.vnamePops + k)
  ∧ (∃ k, st'.scopePushes = st.scopePushes + k ∧ st'.scopePops = st.scopePops + k)

/-- Recognizer for emitted ref edges (used to observe how a reference was
resolved). -/
def isRefEdge : Entry → Bool
  | .edge _ EdgeKind.ref _ => true
  | _ => false

/-- Helper: a list is a prefix of itself followed by anything. -/
theorem isPrefixOf_append_self (p t : Str) : p.isPrefixOf (p ++ t) = true := by
  induction p with
  | nil => simp [List.isPrefixOf]
  | cons c p ih => simp [List.isPrefixOf, ih]

/-- Helper: the search over a stack equals a single first-match scan over the
concatenation of the scopes' reversals, in stack order. -/
theorem searchForDefinition_eq_find (scopes : List (List VName)) (pfx : Str) :
    SearchForDefinition scopes pfx
      = ((scopes.map List.reverse).flatten).find? (fun v => startsWith v.signature pfx) := by
  induction scopes with
  | nil => rfl
  | cons scope rest ih =>
    simp only [SearchForDefinition, searchScope, List.map_cons, List.flatten, List.find?_append]
    cases h : scope.reverse.find? (fun v => startsWith v.signature pfx) with
    | some v => simp [h]
    | none => simp [h, ih]

/-- Claim C1: `SearchForDefinition` scans the scopes from innermost (top of
stack) to outermost and each scope in reverse declaration order, returning
the first VName whose signature starts with the reference signature: it
equals a first-match scan of the concatenation, in stack order, of the
reversed scopes; in particular every returned VName's signature has the
reference signature as a prefix. -/
theorem searchForDefinition_innermost_latest_first_match (scopes : List (List VName)) (pfx : Str) :
    (SearchForDefinition scopes pfx
        = ((scopes.map List.reverse).flatten).find? (fun v => startsWith v.signature pfx))
    ∧ ∀ v, SearchForDefinition scopes pfx = some v → startsWith v.signature pfx = true := by
  refine ⟨searchForDefinition_eq_find scopes pfx, fun v hv => ?_⟩
  rw [searchForDefinition_eq_find scopes pfx] at hv
  simpa using List.find?_some hv

/-- Witness for C1 at a concrete input. -/
theorem searchForDefinition_innermost_latest_first_match_witness :
    startsWith (VName.mk [] [] [] [] []).signature [] = true := by
  exact (searchForDefinition_innermost_latest_first_match [[VName.mk [] [] [] [] []]] []).2
    (VName.mk [] [] [] [] []) rfl

/-- Claim C2: in a scope holding two sequential declarations matching the
lookup signature, a lookup performed after both returns the later one. -/
theorem searchForDefinition_returns_later_declaration
    (pre : List VName) (rest : List (List VName)) (v1 v2 : VName) (pfx : Str)
    (h1 : startsWith v1.signature pfx = true)
    (h2 : startsWith v2.signature pfx = true) :
    SearchForDefinition ((pre ++ [v1, v2]) :: rest) pfx = some v2 := by
  simp [SearchForDefinition, searchScope, List.find?_append, h2]

/-- Witness for C2 at a concrete input. -/
theorem searchForDefinition_returns_later_declaration_witness :
    SearchForDefinition
        (([] ++ [VName.mk ['x'] [] [] [] [], VName.mk ['x', 'b'] [] [] [] []]) :: []) ['x']
      = some (VName.mk ['x', 'b'] [] [] [] []) := by
  exact searchForDefinition_returns_later_declaration [] [] _ _ ['x'] (by decide) (by decide)

/-- Claim C6: the three kind-tagged signature builders give pairwise distinct
signatures for every name, so same-named entities of different kinds never
collide. -/
theorem signature_kind_tags_pairwise_distinct (n : Str) :
    CreateModuleSignature n ≠ CreateClassSignature n
    ∧ CreateModuleSignature n ≠ CreateVariableSignature n
    ∧ CreateClassSignature n ≠ CreateVariableSignature n := by
  refine ⟨fun h => ?_, fun h => ?_, fun h => ?_⟩ <;>
    simp only [CreateModuleSignature, CreateClassSignature, CreateVariableSignature,
      List.append_assoc] at h <;>
    exact absurd (List.append_cancel_left h) (by decide)

/-- Witness for C6 at a concrete name. -/
theorem signature_kind_tags_pairwise_distinct_witness :
    CreateModuleSignature ['x'] ≠ CreateClassSignature ['x'] :=
  (signature_kind_tags_pairwise_distinct ['x']).1

/-- Claim C5: `CreateScopeRelativeSignature` aborts fatally (modelled as
`none`, the `ABSL_DIE_IF_NULL` branch) exactly when VNameContext is empty;
with a non-empty context the fatal branch is not taken and the result is the
local signature concatenated with the signature of the context's top VName. -/
theorem createScopeRelativeSignature_fatal_iff_empty_context (ctx : List VName) (s : Str) :
    (ctx = [] → CreateScopeRelativeSignature ctx s = none)
    ∧ ∀ v rest, ctx = v :: rest →
        CreateScopeRelativeSignature ctx s = some (s ++ sigSep ++ v.signature) := by
  constructor
  · rintro rfl
    rfl
  · rintro v rest rfl
    rfl

/-- Witness for C5 at concrete inputs: the empty context aborts, a singleton
context yields the concatenated signature. -/
theorem createScopeRelativeSignature_fatal_iff_empty_context_witness :
    CreateScopeRelativeSignature [] ['x'] = none
    ∧ CreateScopeRelativeSignature [VName.mk ['f'] [] [] [] []] ['x']
        = some (['x'] ++ sigSep ++ ['f']) :=
  ⟨(createScopeRelativeSignature_fatal_iff_empty_context [] ['x']).1 rfl,
   (createScopeRelativeSignature_fatal_iff_empty_context
      [VName.mk ['f'] [] [] [] []] ['x']).2 _ _ rfl⟩

/-- Claim C9: `SearchForDefinition` is a pure read: the state-passing
embedding of the method returns the scope stack unchanged (same scopes, same
contents, same order), and its result is the one computed above. -/
theorem searchForDefinition_pure_read (scopes : List (List VName)) (pfx : Str) :
    (searchForDefinitionState scopes pfx).2 = scopes
    ∧ (searchForDefinitionState scopes pfx).1 = SearchForDefinition scopes pfx := by
  induction scopes with
  | nil => exact ⟨rfl, rfl⟩
  | cons scope rest ih =>
    simp only [searchForDefinitionState, SearchForDefinition]
    cases h : searchScope pfx scope with
    | some v => simp [h]
    | none => simp [h, ih.1, ih.2]

/-- Claim C10: `IsStorageTypeOfDataTypeSpecified` returns true exactly when
the symbol is a `kDataType` node whose child at position 0 is present
(non-null); on every other symbol, including one with a missing child, it
returns false rather than raising an error. -/
theorem isStorageTypeOfDataTypeSpecified_iff_child0_present (s : Symbol) :
    IsStorageTypeOfDataTypeSpecified s = true
      ↔ ∃ cs c, s = Symbol.node NodeEnum.kDataType cs ∧ cs.getD 0 none = some c := by
  constructor
  · intro h
    cases s with
    | leaf t =>
      simp [IsStorageTypeOfDataTypeSpecified, GetSubtreeAsSymbol] at h
    | node tag cs =>
      cases tag with
      | kDataType =>
        simp only [IsStorageTypeOfDataTypeSpecified, GetSubtreeAsSymbol, if_true] at h
        rcases Option.isSome_iff_exists.mp h with ⟨c, hc⟩
        exact ⟨cs, c, rfl, hc⟩
      | otherTag n =>
        simp [IsStorageTypeOfDataTypeSpecified, GetSubtreeAsSymbol] at h
  · rintro ⟨cs, c, rfl, hc⟩
    simp only [IsStorageTypeOfDataTypeSpecified, GetSubtreeAsSymbol, if_true]
    rw [hc]
    rfl

/-- Witness for C10 at a concrete symbol with a present storage child. -/
theorem isStorageTypeOfDataTypeSpecified_iff_child0_present_witness :
    IsStorageTypeOfDataTypeSpecified
        (Symbol.node NodeEnum.kDataType [some (Symbol.leaf ['w'])]) = true :=
  (isStorageTypeOfDataTypeSpecified_iff_child0_present
      (Symbol.node NodeEnum.kDataType [some (Symbol.leaf ['w'])])).mpr
    ⟨[some (Symbol.leaf ['w'])], Symbol.leaf ['w'], rfl, rfl⟩

/-- Extending the top scope by nothing changes nothing. -/
theorem topExtend_nil (sc : List (List VName)) : topExtend [] sc = sc := by
  cases sc <;> simp [topExtend]

/-- Two successive top-scope extensions compose. -/
theorem topExtend_comp (ex1 ex2 : List VName) (sc : List (List VName)) :
    topExtend ex2 (topExtend ex1 sc) = topExtend (ex1 ++ ex2) sc := by
  cases sc <;> simp [topExtend]

/-- The frame relation is reflexive. -/
theorem frame_refl (st : ExtractorState) : FramePreserved st st :=
  ⟨rfl, ⟨[], (topExtend_nil _).symm⟩, ⟨[], by simp⟩, ⟨0, rfl, rfl⟩, ⟨0, rfl, rfl⟩⟩

/-- The frame relation is transitive. -/
theorem frame_trans {st1 st2 st3 : ExtractorState}
    (h1 : FramePreserved st1 st2) (h2 : FramePreserved st2 st3) :
    FramePreserved st1 st3 := by
  obtain ⟨hv1, ⟨e1, hs1⟩, ⟨o1, ho1⟩, ⟨k1, hk1, hk1b⟩, ⟨j1, hj1, hj1b⟩⟩ := h1
  obtain ⟨hv2, ⟨e2, hs2⟩, ⟨o2, ho2⟩, ⟨k2, hk2, hk2b⟩, ⟨j2, hj2, hj2b⟩⟩ := h2
  refine ⟨hv2.trans hv1, ⟨e1 ++ e2, ?_⟩, ⟨o1 ++ o2, ?_⟩, ⟨k1 + k2, ?_, ?_⟩,
    ⟨j1 + j2, ?_, ?_⟩⟩
  · rw [hs2, hs1, topExtend_comp]
  · rw [ho2, ho1, List.append_assoc]
  all_goals omega

/-- Emitting a record only grows the output. -/
theorem frame_emit (st : ExtractorState) (e : Entry) : FramePreserved st (emit st e) :=
  ⟨rfl, ⟨[], (topExtend_nil _).symm⟩, ⟨[e], rfl⟩, ⟨0, rfl, rfl⟩, ⟨0, rfl, rfl⟩⟩

/-- Emitting a childof edge preserves the frame. -/
theorem frame_emitChildOf (v : VName) (st : ExtractorState) :
    FramePreserved st (emitChildOf v st) := by
  unfold emitChildOf
  cases st.vnamesContext.head? with
  | none => exact frame_refl st
  | some parent => exact frame_emit st _

/-- Appending one definition to the top scope preserves the frame. -/
theorem frame_appendTop (v : VName) (st : ExtractorState) :
    FramePreserved st { st with scopeContext := appendToTopScope v st.scopeContext } := by
  refine ⟨rfl, ⟨[v], ?_⟩, ⟨[], by simp⟩, ⟨0, rfl, rfl⟩, ⟨0, rfl, rfl⟩⟩
  cases st.scopeContext <;> simp [appendToTopScope, topExtend]

/-- Push, run a frame-preserving body, pop: the whole sequence preserves the
frame of the state before the push, with one extra push and pop counted on
each stack. -/
theorem frame_pop_of_push {v : VName} {stB st3 : ExtractorState}
    (h : FramePreserved (pushContexts v stB) st3) :
    FramePreserved stB (popContexts st3) := by
  obtain ⟨hv, ⟨ex, hs⟩, ⟨out, ho⟩, ⟨k, hk1, hk2⟩, ⟨j, hj1, hj2⟩⟩ := h
  simp only [pushContexts] at hv hs ho hk1 hk2 hj1 hj2
  refine ⟨?_, ⟨[], ?_⟩, ⟨out, ho⟩, ⟨k + 1, ?_, ?_⟩, ⟨j + 1, ?_, ?_⟩⟩
  · show st3.vnamesContext.tail = stB.vnamesContext
    rw [hv]
    rfl
  · show st3.scopeContext.tail = topExtend [] stB.scopeContext
    rw [hs, topExtend_nil]
    rfl
  · show st3.vnamePushes = stB.vnamePushes + (k + 1)
    omega
  · show st3.vnamePops + 1 = stB.vnamePops + (k + 1)
    omega
  · show st3.scopePushes = stB.scopePushes + (j + 1)
    omega
  · show st3.scopePops + 1 = stB.scopePops + (j + 1)
    omega

/-- Entering a Module or Class node, running a frame-preserving body, and
popping preserves the frame of the surrounding state. -/
theorem frame_enterScopeNode_exit {fp ls : Str} {fv : FactVal} {st st3 : ExtractorState}
    (h : FramePreserved (enterScopeNode fp ls fv st) st3) :
    FramePreserved st (popContexts st3) := by
  simp only [enterScopeNode] at h
  exact frame_trans
    (frame_trans (frame_trans (frame_emit st _) (frame_emitChildOf _ _)) (frame_appendTop _ _))
    (frame_pop_of_push h)

/-- VariableDefinition handling preserves the frame. -/
theorem frame_handleVariableDef (fp : Str) (anchors : List Anchor) (st : ExtractorState) :
    FramePreserved st (handleVariableDef fp anchors st) := by
  simp only [handleVariableDef]
  cases anchors.head? with
  | none =>
    exact frame_trans (frame_trans (frame_emit st _) (frame_emitChildOf _ _))
      (frame_appendTop _ _)
  | some a =>
    exact frame_trans
      (frame_trans
        (frame_trans (frame_trans (frame_emit st _) (frame_emitChildOf _ _))
          (frame_appendTop _ _))
        (frame_emit _ _))
      (frame_emit _ _)

/-- VariableReference handling preserves the frame. -/
theorem frame_handleVariableRef (fp : Str) (anchors : List Anchor) (st : ExtractorState) :
    FramePreserved st (handleVariableRef fp anchors st) := by
  cases anchors with
  | nil => exact frame_refl st
  | cons a rest =>
    simp only [handleVariableRef, List.head?_cons]
    cases SearchForDefinition st.scopeContext (CreateVariableSignature a.text) with
    | some d => exact frame_trans (frame_emit st _) (frame_emit _ _)
    | none => exact frame_emit st _

/-- Instance handling preserves the frame. -/
theorem frame_handleInstance (fp : Str) (typeSigOf : Str → Str) (anchors : List Anchor)
    (st : ExtractorState) : FramePreserved st (handleInstance fp typeSigOf anchors st) := by
  simp only [handleInstance]
  cases SearchForDefinition st.scopeContext (typeSigOf (nodeName anchors)) with
  | some d =>
    exact frame_trans (frame_trans (frame_emit st _) (frame_appendTop _ _)) (frame_emit _ _)
  | none => exact frame_trans (frame_emit st _) (frame_appendTop _ _)

mutual

/-- Visiting any subtree preserves the frame: VNameContext restored, the
scope stack only extended at its top, the output grown, pushes and pops
balanced. -/
theorem visit_frame (fp : Str) (st : ExtractorState) :
    ∀ n : IndexingFactNode, FramePreserved st (visit fp st n)
  | .mk FactKind.file a children => by
    simp only [visit]
    exact frame_trans (frame_emit st _)
      (frame_pop_of_push (visitList_frame fp _ children))
  | .mk FactKind.modul anchors children => by
    simp only [visit]
    exact frame_enterScopeNode_exit (visitList_frame fp _ children)
  | .mk FactKind.classRecord anchors children => by
    simp only [visit]
    exact frame_enterScopeNode_exit (visitList_frame fp _ children)
  | .mk FactKind.moduleInstance anchors children => by
    simp only [visit]
    exact frame_handleInstance fp _ anchors st
  | .mk FactKind.classInstance anchors children => by
    simp only [visit]
    exact frame_handleInstance fp _ anchors st
  | .mk FactKind.variableDefinition anchors children => by
    simp only [visit]
    exact frame_handleVariableDef fp anchors st
  | .mk FactKind.variableReference anchors children => by
    simp only [visit]
    exact frame_handleVariableRef fp anchors st
  | .mk FactKind.other a children => by
    simp only [visit]
    exact visitList_frame fp st children

/-- Visiting a list of siblings preserves the frame. -/
theorem visitList_frame (fp : Str) (st : ExtractorState) :
    ∀ l : List IndexingFactNode, FramePreserved st (visitList fp st l)
  | [] => frame_refl st
  | c :: cs => by
    simp only [visitList]
    exact frame_trans (visit_frame fp st c) (visitList_frame fp (visit fp st c) cs)

end

/-- Claim C8: a traversal of a whole tree rooted at a File node performs
equally many pushes and pops on ScopeContext and on VNameContext, on every
path, and both stacks are empty again when `Visit` on the File node
completes. -/
theorem file_traversal_balances_stacks (fp : Str) (anchors : List Anchor)
    (children : List IndexingFactNode) :
    (visit fp initState (IndexingFactNode.mk FactKind.file anchors children)).vnamesContext = []
    ∧ (visit fp initState (IndexingFactNode.mk FactKind.file anchors children)).scopeContext = []
    ∧ (visit fp initState (IndexingFactNode.mk FactKind.file anchors children)).vnamePushes
        = (visit fp initState (IndexingFactNode.mk FactKind.file anchors children)).vnamePops
    ∧ (visit fp initState (IndexingFactNode.mk FactKind.file anchors children)).scopePushes
        = (visit fp initState (IndexingFactNode.mk FactKind.file anchors children)).scopePops := by
  obtain ⟨hv, ⟨ex, hs⟩, -, ⟨k, hk1, hk2⟩, ⟨j, hj1, hj2⟩⟩ :=
    visitList_frame fp
      (pushContexts (mkVName fp fp)
        (emit initState (Entry.fact (mkVName fp fp) FactName.nodeKind FactVal.file)))
      children
  simp only [visit, popContexts]
  refine ⟨?_, ?_, ?_, ?_⟩
  · rw [hv]
    rfl
  · rw [hs]
    rfl
  · rw [hk1, hk2]
    simp only [pushContexts, emit, initState]
    omega
  · rw [hj1, hj2]
    simp only [pushContexts, emit, initState]
    omega

/-- Claim C7: extraction is deterministic: two runs on equal input trees and
equal file paths write identical entry sequences to the output sink. -/
theorem extraction_deterministic (fp1 fp2 : Str) (t1 t2 : IndexingFactNode)
    (hfp : fp1 = fp2) (ht : t1 = t2) :
    extractKytheFacts fp1 t1 = extractKytheFacts fp2 t2 := by
  rw [hfp, ht]

/-- Witness for C7 at a concrete input. -/
theorem extraction_deterministic_witness :
    extractKytheFacts [] (IndexingFactNode.mk FactKind.file [] [])
      = extractKytheFacts [] (IndexingFactNode.mk FactKind.file [] []) :=
  extraction_deterministic [] [] (IndexingFactNode.mk FactKind.file [] [])
    (IndexingFactNode.mk FactKind.file [] []) rfl rfl

/-- Claim C4: an unresolved lookup is non-fatal: when no VName signature on
the stack has the reference signature as a prefix, `SearchForDefinition`
returns null, the reference's anchor fact is still emitted with no ref edge,
the stacks are untouched, and the traversal continues with the following
siblings; likewise an instance whose type does not resolve still gets its
fact, only the instantiates edge is omitted. -/
theorem unresolved_reference_nonfatal (fp : Str) (a : Anchor) (tailAnchors : List Anchor)
    (children rest : List IndexingFactNode) (st : ExtractorState)
    (hmiss : SearchForDefinition st.scopeContext (CreateVariableSignature a.text) = none) :
    ((visit fp st (IndexingFactNode.mk FactKind.variableReference (a :: tailAnchors) children)).output
        = st.output ++ [Entry.fact (anchorVName fp a) FactName.nodeKind FactVal.anchor]
      ∧ (visit fp st (IndexingFactNode.mk FactKind.variableReference (a :: tailAnchors) children)).vnamesContext
          = st.vnamesContext
      ∧ (visit fp st (IndexingFactNode.mk FactKind.variableReference (a :: tailAnchors) children)).scopeContext
          = st.scopeContext)
    ∧ (visitList fp st
          (IndexingFactNode.mk FactKind.variableReference (a :: tailAnchors) children :: rest)
        = visitList fp
            (visit fp st (IndexingFactNode.mk FactKind.variableReference (a :: tailAnchors) children))
            rest)
    ∧ ∀ b : List Anchor,
        SearchForDefinition st.scopeContext (CreateModuleSignature (nodeName b)) = none →
        (visit fp st (IndexingFactNode.mk FactKind.moduleInstance b children)).output
          = st.output
            ++ [Entry.fact
                  (mkVName (scopeRelSig st.vnamesContext
                    (CreateVariableSignature (nodeName b.tail))) fp)
                  FactName.nodeKind FactVal.instanceRec] := by
  refine ⟨⟨?_, ?_, ?_⟩, ?_, ?_⟩
  · simp only [visit, handleVariableRef, List.head?_cons, hmiss, emit]
  · simp only [visit, handleVariableRef, List.head?_cons, hmiss, emit]
  · simp only [visit, handleVariableRef, List.head?_cons, hmiss, emit]
  · simp only [visitList]
  · intro b hmiss2
    simp only [visit, handleInstance, hmiss2, emit]

/-- Witness for C4 at a concrete input: a reference with an empty scope
stack resolves to nothing, yet its anchor fact is emitted. -/
theorem unresolved_reference_nonfatal_witness :
    (visit [] initState
        (IndexingFactNode.mk FactKind.variableReference [Anchor.mk 0 0 ['x']] [])).output
      = [] ++ [Entry.fact (anchorVName [] (Anchor.mk 0 0 ['x'])) FactName.nodeKind FactVal.anchor] :=
  (unresolved_reference_nonfatal [] (Anchor.mk 0 0 ['x']) [] [] [] initState rfl).1.1

/-- Claim C3: with two sibling modules each defining a variable `x`, a
reference to `x` inside the second module resolves to that module's own
definition: the single emitted ref edge targets the VName minted for `x`
inside the enclosing module, and that VName differs from the sibling's `x`
(the sibling's scope was popped before the enclosing module was entered, so
its inner definitions are no longer on the stack). -/
theorem sibling_scope_definitions_not_visible
    (fp x aName bName : Str) (pB qB pA qA p1 q1 p2 q2 p3 q3 : Nat)
    (hne : aName ≠ bName) :
    ((extractKytheFacts fp
        (IndexingFactNode.mk FactKind.file []
          [IndexingFactNode.mk FactKind.modul [Anchor.mk pB qB bName]
            [IndexingFactNode.mk FactKind.variableDefinition [Anchor.mk p1 q1 x] []],
           IndexingFactNode.mk FactKind.modul [Anchor.mk pA qA aName]
            [IndexingFactNode.mk FactKind.variableDefinition [Anchor.mk p2 q2 x] [],
             IndexingFactNode.mk FactKind.variableReference [Anchor.mk p3 q3 x] []]])).filter isRefEdge
      = [Entry.edge (anchorVName fp (Anchor.mk p3 q3 x)) EdgeKind.ref
          (mkVName (CreateVariableSignature x ++ sigSep
            ++ (CreateModuleSignature aName ++ sigSep ++ fp)) fp)])
    ∧ mkVName (CreateVariableSignature x ++ sigSep ++ (CreateModuleSignature aName ++ sigSep ++ fp)) fp
      ≠ mkVName (CreateVariableSignature x ++ sigSep ++ (CreateModuleSignature bName ++ sigSep ++ fp)) fp := by
  constructor
  · simp only [extractKytheFacts, visit, visitList, enterScopeNode, handleVariableDef,
      handleVariableRef, emitChildOf, emit, pushContexts, popContexts, appendToTopScope,
      scopeRelSig, CreateScopeRelativeSignature, VNameContext.top, initState, nodeName,
      SearchForDefinition, searchScope, startsWith, List.head?_cons, List.head?_nil,
      List.reverse_nil, List.reverse_cons, List.append_nil, List.nil_append, List.find?,
      mkVName, List.append_assoc, isPrefixOf_append_self, List.tail_cons,
      List.filter_append, List.filter, isRefEdge]
  · intro h
    have hs := congrArg VName.signature h
    simp only [mkVName, CreateVariableSignature, CreateModuleSignature,
      List.append_assoc] at hs
    have h1 := List.append_cancel_left hs
    have h2 := List.append_cancel_left h1
    have h3 := List.append_cancel_left h2
    have h4 := List.append_cancel_left h3
    exact hne (List.append_cancel_right h4)

/-- Witness for C3 at concrete module names: the two same-named variables of
distinct sibling modules get distinct VNames. -/
theorem sibling_scope_definitions_not_visible_witness :
    mkVName (CreateVariableSignature ['x'] ++ sigSep
        ++ (CreateModuleSignature ['a'] ++ sigSep ++ [])) []
      ≠ mkVName (CreateVariableSignature ['x'] ++ sigSep
        ++ (CreateModuleSignature ['b'] ++ sigSep ++ [])) [] :=
  (sibling_scope_definitions_not_visible [] ['x'] ['a'] ['b'] 0 0 1 1 2 2 3 3 4 4
    (by decide)).2

end Verible
